import Mathlib

/-!
Verification of the versioned data-set core instantiated by
`kedro/io/parquet_local.py` (`ParquetLocalDataSet`).

The file `parquet_local.py` is embedded directly.  The versioning helpers it
calls (`Version`, `_get_load_path`, `_get_save_path`, `_check_paths_consistency`,
`DataSetError`) live in `kedro/io/core.py`, which is not part of the source
tree under verification; those are modelled from the specification
(`spec.md`, sections 3, 4.2, 4.3 and 7) and are marked as such in their doc
comments.

The storage backend (local filesystem) and codec (parquet engine) are
external collaborators; they are modelled as explicit state
(`Backend`) and an injected encode/decode pair (`Codec`), following the
spec's collaborator contracts (section 6).
-/

namespace Kedro

/-- Values appearing in the Python option dictionaries (`load_args` /
`save_args`).  Only the shapes needed by the claims are modelled:
Python `None`, strings, and numbers. -/
inductive PyVal where
  | pyNone
  | pyStr (s : String)
  | pyNat (n : Nat)
deriving DecidableEq, Repr

/-- Association-list lookup with propositional key equality (models Python
dict access: the first binding for a key wins). -/
def alistGet {γ : Type} (k : String) : List (String × γ) → Option γ
  | [] => none
  | (k', v) :: rest => if k' = k then some v else alistGet k rest

/-- Python `{**d1, **d2}` where `d2` overrides `d1`: under first-match
lookup semantics, prepending the overriding dictionary realises the merge. -/
def dictMerge (d1 d2 : List (String × PyVal)) : List (String × PyVal) :=
  d2 ++ d1

/-- Modelled from the spec: `kedro.io.core.Version` (section 3, VersionSpec) —
an optional pair of version tokens, each independently nullable.  A null
`load` means "resolve to the most recent existing version"; a null `save`
means "auto-generate a fresh token at save time". -/
structure Version where
  load : Option String
  save : Option String
deriving DecidableEq, Repr

/-- Modelled from the spec: the error taxonomy of section 7
(`kedro.io.core.DataSetError` and friends, missing from the source tree).
`noVersionFound` and `savePathMustNotExist` and `versionConsistency` are
`DataSetError`s in the reference; `storageAccess` models an OS-level backend
failure that is not a `DataSetError`. -/
inductive DSError where
  | noVersionFound (filepath : String)
  | savePathMustNotExist (path : String)
  | versionConsistency (loadPath savePath : String)
  | codecError
  | storageAccess (path : String)
deriving DecidableEq, Repr

/-- Whether an error is the post-save path-mismatch error. -/
def DSError.isVersionConsistency : DSError → Bool
  | .versionConsistency _ _ => true
  | _ => false

/-- Split a character list at `/` separators (the semantics of Python's
`p.split("/")`, written as structural recursion so that concrete paths
evaluate). -/
def splitPathAux : List Char → List Char → List String
  | [], acc => [String.mk acc.reverse]
  | c :: cs, acc =>
    if c = '/' then String.mk acc.reverse :: splitPathAux cs []
    else splitPathAux cs (c :: acc)

/-- The `/`-separated components of a path string. -/
def splitPath (p : String) : List String :=
  splitPathAux p.data []

/-- Last path component (Python `Path(p).name`). -/
def baseName (p : String) : String :=
  (splitPath p).getLastD ""

/-- All components but the last, rejoined (Python `Path(p).parent`). -/
def dirName (p : String) : String :=
  String.intercalate "/" (splitPath p).dropLast

/-- Strict lexicographic order on code points (the comparison Python uses
on version-token strings, and the order in which the reference sorts the
backend listing), as a structurally recursive Boolean so that concrete
tokens evaluate. -/
def tokLtL : List Char → List Char → Bool
  | _, [] => false
  | [], _ :: _ => true
  | c :: cs, d :: ds =>
    if c.toNat < d.toNat then true
    else if d.toNat < c.toNat then false
    else tokLtL cs ds

/-- Strict lexicographic order on version-token strings. -/
def tokLt (a b : String) : Bool :=
  tokLtL a.data b.data

/-- Modelled from the spec: the versioned-path convention of sections 4.2
and 6 — `<dir>/<version_token>/<basename>`, nesting the basename one
directory below a version-named folder under the logical path. -/
def versionedPath (filepath token : String) : String :=
  filepath ++ "/" ++ token ++ "/" ++ baseName filepath

/-- Whether a path string is absolute (starts with `/`). -/
def isAbs (p : String) : Bool :=
  match p.data with
  | [] => false
  | c :: _ => c = '/'

/-- Python `Path(p).absolute()`: prefix the current working directory when
the path is relative.  Physical locations in the backend are keyed by
absolutised paths, so two path strings denote the same physical location
exactly when their absolutised forms coincide. -/
def absPath (cwd p : String) : String :=
  if isAbs p then p else cwd ++ "/" ++ p

/-- The storage backend state (spec section 6): the local filesystem as seen
through the backend capability.  `files` maps absolutised paths of regular
files to their stored bytes; `dirs` lists absolutised paths of directories;
`versions` lists the names of the existing version directories under the
dataset's logical path (what `list_children` returns); `listable` records
whether listing the version directory succeeds (a failed listing is a
storage-access failure, spec section 4.2). -/
structure Backend (β : Type) where
  cwd : String
  files : List (String × β)
  dirs : List String
  versions : List String
  listable : Bool

/-- Python `Path(p).exists()` on the backend: a regular file or a directory
at the absolutised path. -/
def pathExists {β : Type} (b : Backend β) (p : String) : Bool :=
  (alistGet (absPath b.cwd p) b.files).isSome || (b.dirs.contains (absPath b.cwd p))

/-- Python `Path(p).is_file()` on the backend: a regular file at the
absolutised path (directories do not count). -/
def isFile {β : Type} (b : Backend β) (p : String) : Bool :=
  (alistGet (absPath b.cwd p) b.files).isSome

/-- The lexicographically/temporally maximum token of a listing, `none` on
an empty listing (the reference sorts the listing in reverse and takes the
first entry). -/
def maxToken : List String → Option String
  | [] => none
  | t :: ts =>
    match maxToken ts with
    | none => some t
    | some m => some (if tokLt t m then m else t)

/-- Modelled from the spec: `resolve_for_load`
(`kedro.io.core._get_load_path`, section 4.2).  No version spec: the logical
path is used directly (Unversioned state, section 4.4).  A pinned load token
gives `<dir>/<load_token>/<basename>` deterministically.  Otherwise the
backend listing is queried for existing version directories and the maximum
is selected; an empty listing fails with `NoVersionFoundError`, an
unlistable backend fails with `StorageAccessError`. -/
def getLoadPath {β : Type} (b : Backend β) (filepath : String)
    (version : Option Version) : Except DSError String :=
  match version with
  | none => .ok filepath
  | some v =>
    match v.load with
    | some tok => .ok (versionedPath filepath tok)
    | none =>
      if b.listable then
        match maxToken b.versions with
        | some tok => .ok (versionedPath filepath tok)
        | none => .error (.noVersionFound filepath)
      else .error (.storageAccess filepath)

/-- The save token actually used by one save call: the pinned `save` token
when present, otherwise the token generated for this call (spec section
4.1/4.2; generation is external nondeterminism, passed in explicitly).
`none` when the dataset is unversioned. -/
def saveToken (version : Option Version) (genTok : String) : Option String :=
  version.map (fun v => v.save.getD genTok)

/-- Modelled from the spec: `resolve_for_save`
(`kedro.io.core._get_save_path`, sections 3 and 4.2).  No version spec: the
logical path is used directly.  Otherwise the pinned save token (or the
freshly generated one) gives `<dir>/<token>/<basename>`; a save path that
already exists is a caller error (the immutability invariant of section 3:
a written version is never silently overwritten). -/
def getSavePath {β : Type} (b : Backend β) (filepath : String)
    (version : Option Version) (genTok : String) : Except DSError String :=
  match version with
  | none => .ok filepath
  | some v =>
    let p := versionedPath filepath (v.save.getD genTok)
    if pathExists b p then .error (.savePathMustNotExist p) else .ok p

/-- Modelled from the spec: `ConsistencyChecker.check`
(`kedro.io.core._check_paths_consistency`, section 4.3).  Succeeds silently
when the two normalised absolute paths coincide; otherwise fails with
`VersionConsistencyError` carrying both paths. -/
def checkPathsConsistency (loadPath savePath : String) : Option DSError :=
  if loadPath = savePath then none
  else some (.versionConsistency loadPath savePath)

/-- The injected codec capability (spec section 6): pure encode/decode of a
typed payload to stored bytes, taking the engine and the option dictionary
exactly as the parquet calls in the source do; `none` models a `CodecError`. -/
structure Codec (α β : Type) where
  encode : String → List (String × PyVal) → α → Option β
  decode : String → List (String × PyVal) → β → Option α

/-- The construction-time state of `ParquetLocalDataSet`
(`parquet_local.py`, `__init__`): field for field the attributes the
constructor assigns. -/
structure ParquetLocalDataSet where
  filepath : String
  engine : String
  load_args : List (String × PyVal)
  save_args : List (String × PyVal)
  version : Option Version
deriving Repr

/-- `parquet_local.py` `__init__` line by line:
`default_save_args = {"compression": None}`. -/
def defaultSaveArgs : List (String × PyVal) :=
  [("compression", PyVal.pyNone)]

/-- `parquet_local.py` `__init__`: `default_load_args = {}`. -/
def defaultLoadArgs : List (String × PyVal) :=
  []

/-- `ParquetLocalDataSet.__init__` (`parquet_local.py` lines 80-132): stores
the filepath, engine and version spec, and merges the optional option
dictionaries with the defaults at construction time (`{**defaults, **args}`
when an argument is given, the bare defaults otherwise). -/
def initDataSet (filepath engine : String)
    (load_args save_args : Option (List (String × PyVal)))
    (version : Option Version) : ParquetLocalDataSet :=
  { filepath := filepath
    engine := engine
    load_args :=
      match load_args with
      | some la => dictMerge defaultLoadArgs la
      | none => defaultLoadArgs
    save_args :=
      match save_args with
      | some sa => dictMerge defaultSaveArgs sa
      | none => defaultSaveArgs
    version := version }

/-- `pd.read_parquet(path, engine=..., **load_args)`: read the bytes stored
at the (absolutised) path and decode them with the injected codec.  A
missing file is a storage-access failure; a decode failure is a codec
error. -/
def read_parquet {α β : Type} (c : Codec α β) (engine : String)
    (args : List (String × PyVal)) (b : Backend β) (path : String) :
    Except DSError α :=
  match alistGet (absPath b.cwd path) b.files with
  | none => .error (.storageAccess path)
  | some bytes =>
    match c.decode engine args bytes with
    | none => .error .codecError
    | some x => .ok x

/-- `save_path.parent.mkdir(parents=True, exist_ok=True)`
(`parquet_local.py` line 140): create the parent directory of the save
path.  For a versioned save the parent is the version directory
`<filepath>/<token>`, so the token becomes visible to subsequent backend
listings; `tok?` is `saveToken version genTok`, the name of that directory. -/
def mkdirParents {β : Type} (b : Backend β) (tok? : Option String)
    (savePath : String) : Backend β :=
  { b with
    dirs := absPath b.cwd (dirName savePath) :: b.dirs
    versions :=
      match tok? with
      | some tok => tok :: b.versions
      | none => b.versions }

/-- The byte-level write of `data.to_parquet(save_path, ...)`: store the
encoded bytes as a regular file at the absolutised save path (a new first
binding overrides any previous content under first-match lookup). -/
def writeFile {β : Type} (b : Backend β) (savePath : String) (bytes : β) :
    Backend β :=
  { b with files := (absPath b.cwd savePath, bytes) :: b.files }

/-- `ParquetLocalDataSet._load` (`parquet_local.py` lines 134-136): resolve
the load path, then `pd.read_parquet(load_path, engine=self._engine,
**self._load_args)`. -/
def _load {α β : Type} (c : Codec α β) (d : ParquetLocalDataSet)
    (b : Backend β) : Except DSError α :=
  match getLoadPath b d.filepath d.version with
  | .error e => .error e
  | .ok p => read_parquet c d.engine d.load_args b p

/-- `ParquetLocalDataSet._save` (`parquet_local.py` lines 138-146): resolve
the save path once, create the parent directory, encode and write the
payload (`data.to_parquet(save_path, engine=self._engine,
**self._save_args)`), then re-resolve the load path and run the consistency
check on the two absolutised paths.  The result pairs the backend state
after the call with the error, if any: a mid-save failure returns the bytes
and directories already flushed (no rollback, spec section 7). -/
def _save {α β : Type} (c : Codec α β) (d : ParquetLocalDataSet)
    (b : Backend β) (data : α) (genTok : String) :
    Backend β × Option DSError :=
  match getSavePath b d.filepath d.version genTok with
  | .error e => (b, some e)
  | .ok savePath =>
    let b1 := mkdirParents b (saveToken d.version genTok) savePath
    match c.encode d.engine d.save_args data with
    | none => (b1, some .codecError)
    | some bytes =>
      let b2 := writeFile b1 savePath bytes
      match getLoadPath b2 d.filepath d.version with
      | .error e => (b2, some e)
      | .ok loadPath =>
        match checkPathsConsistency (absPath b2.cwd loadPath)
            (absPath b2.cwd savePath) with
        | some e => (b2, some e)
        | none => (b2, none)

/-- `ParquetLocalDataSet._exists` (`parquet_local.py` lines 148-153):
attempt load-path resolution; `except DataSetError: return False` — the only
`DataSetError` load resolution raises is `NoVersionFoundError` (spec
sections 4.4 and 7), so that is what is swallowed, while a storage-access
failure (an OS-level error, not a `DataSetError`) propagates; on success,
`Path(path).is_file()`. -/
def _exists {β : Type} (d : ParquetLocalDataSet) (b : Backend β) :
    Except DSError Bool :=
  match getLoadPath b d.filepath d.version with
  | .error (.noVersionFound _) => .ok false
  | .error e => .error e
  | .ok p => .ok (isFile b p)

def natCodec : Codec Nat Nat :=
  ⟨fun _ _ x => some x, fun _ _ y => some y⟩

def failingCodec : Codec Nat Nat :=
  ⟨fun _ _ _ => none, fun _ _ _ => none⟩

def emptyBackend : Backend Nat :=
  ⟨"/cwd", [], [], [], true⟩

def listedBackend : Backend Nat :=
  ⟨"/cwd", [], [], ["2019-01-02T00.00.00", "2019-01-03T00.00.00", "2019-01-01T00.00.00"], true⟩

def unlistableBackend : Backend Nat :=
  ⟨"/cwd", [], [], [], false⟩

def staleBackend : Backend Nat :=
  ⟨"/cwd", [], [], ["2222"], true⟩

def dirBackend : Backend Nat :=
  ⟨"/cwd", [], ["/cwd/data/out.parquet/2019-01-01T00.00.00/out.parquet"],
    ["2019-01-01T00.00.00"], true⟩

def dsUnversioned : ParquetLocalDataSet :=
  initDataSet "data/out.parquet" "auto" none none none

def dsAuto : ParquetLocalDataSet :=
  initDataSet "data/out.parquet" "auto" none none (some ⟨none, none⟩)

def dsPinned : ParquetLocalDataSet :=
  initDataSet "data/out.parquet" "auto" none none (some ⟨none, some "1111"⟩)

def staleWritten : Backend Nat :=
  writeFile (mkdirParents staleBackend (some "1111") "data/out.parquet/1111/out.parquet")
    "data/out.parquet/1111/out.parquet" 7

def occupiedBackend : Backend Nat :=
  ⟨"/cwd", [("/cwd/data/out.parquet/1111/out.parquet", 9)], [], ["1111"], true⟩

theorem tokLtL_irrefl (l : List Char) : tokLtL l l = false := by
  induction l with
  | nil => rfl
  | cons c cs ih => simp [tokLtL, ih]

theorem tokLtL_asymm : ∀ {a b : List Char}, tokLtL a b = true → tokLtL b a = false := by
  intro a
  induction a with
  | nil =>
    intro b h
    cases b with
    | nil => simp [tokLtL] at h
    | cons d ds => simp [tokLtL]
  | cons c cs ih =>
    intro b h
    cases b with
    | nil => simp [tokLtL] at h
    | cons d ds =>
      simp only [tokLtL] at h ⊢
      by_cases hcd : c.toNat < d.toNat
      · have hdc : ¬ d.toNat < c.toNat := by omega
        simp [hcd, hdc]
      · by_cases hdc : d.toNat < c.toNat
        · simp [hcd, hdc] at h
        · simp only [hcd, hdc, if_false] at h ⊢
          exact ih h

theorem tokLtL_lt_of_not_lt_of_lt : ∀ {a b c : List Char},
    tokLtL a b = false → tokLtL a c = true → tokLtL b c = true := by
  intro a
  induction a with
  | nil =>
    intro b c h1 h2
    cases b with
    | nil => exact h2
    | cons y ys => simp [tokLtL] at h1
  | cons x xs ih =>
    intro b c h1 h2
    cases c with
    | nil => simp [tokLtL] at h2
    | cons z zs =>
      cases b with
      | nil => simp [tokLtL]
      | cons y ys =>
        simp only [tokLtL] at h1 h2 ⊢
        by_cases hxy : x.toNat < y.toNat
        · simp [hxy] at h1
        · by_cases hxz : x.toNat < z.toNat
          · by_cases hyx : y.toNat < x.toNat
            · have hyz : y.toNat < z.toNat := by omega
              simp [hyz]
            · have hxyE : x.toNat = y.toNat := by omega
              have hyz : y.toNat < z.toNat := by omega
              simp [hyz]
          · by_cases hzx : z.toNat < x.toNat
            · simp [hxz, hzx] at h2
            · have hxzE : x.toNat = z.toNat := by omega
              simp only [hxz, hzx, if_false] at h2
              by_cases hyx : y.toNat < x.toNat
              · have hyz : y.toNat < z.toNat := by omega
                simp [hyz]
              · have hxyE : x.toNat = y.toNat := by omega
                simp only [hxy, hyx, if_false] at h1
                have hyz : ¬ y.toNat < z.toNat := by omega
                have hzy : ¬ z.toNat < y.toNat := by omega
                simp only [hyz, hzy, if_false]
                exact ih h1 h2

theorem maxToken_cons_isSome (t : String) (ts : List String) :
    (maxToken (t :: ts)).isSome = true := by
  simp only [maxToken]
  cases maxToken ts <;> simp

theorem maxToken_mem : ∀ {l : List String} {m : String}, maxToken l = some m → m ∈ l := by
  intro l
  induction l with
  | nil => intro m h; simp [maxToken] at h
  | cons t ts ih =>
    intro m h
    simp only [maxToken] at h
    cases hts : maxToken ts with
    | none =>
      rw [hts] at h
      simp only [Option.some.injEq] at h
      simp [← h]
    | some m' =>
      rw [hts] at h
      simp only [Option.some.injEq] at h
      by_cases hlt : tokLt t m'
      · rw [if_pos hlt] at h
        subst h
        exact List.mem_cons_of_mem _ (ih hts)
      · rw [if_neg hlt] at h
        subst h
        exact List.mem_cons_self _ _

theorem maxToken_not_lt : ∀ {l : List String} {m : String}, maxToken l = some m →
    ∀ u ∈ l, tokLt m u = false := by
  intro l
  induction l with
  | nil => intro m h; simp [maxToken] at h
  | cons t ts ih =>
    intro m h u hu
    simp only [maxToken] at h
    cases hts : maxToken ts with
    | none =>
      rw [hts] at h
      simp only [Option.some.injEq] at h
      subst h
      cases ts with
      | nil =>
        rcases List.mem_singleton.mp hu with rfl
        exact tokLtL_irrefl _
      | cons t' ts' =>
        have := maxToken_cons_isSome t' ts'
        rw [hts] at this
        simp at this
    | some m' =>
      rw [hts] at h
      simp only [Option.some.injEq] at h
      rcases List.mem_cons.mp hu with heq | hu'
      · rw [heq]
        by_cases hlt : tokLt t m'
        · rw [if_pos hlt] at h
          subst h
          exact tokLtL_asymm hlt
        · rw [if_neg hlt] at h
          subst h
          exact tokLtL_irrefl _
      · have ihu : tokLt m' u = false := ih hts u hu'
        by_cases hlt : tokLt t m'
        · rw [if_pos hlt] at h
          subst h
          exact ihu
        · rw [if_neg hlt] at h
          subst h
          cases htu : tokLt t u with
          | false => rfl
          | true =>
            have : tokLt m' u = true :=
              tokLtL_lt_of_not_lt_of_lt (by simpa [tokLt] using hlt) htu
            rw [this] at ihu
            cases ihu

theorem alistGet_cons_self {γ : Type} (k : String) (v : γ) (rest : List (String × γ)) :
    alistGet k ((k, v) :: rest) = some v := by
  simp [alistGet]

theorem writeFile_cwd {β : Type} (b : Backend β) (p : String) (x : β) :
    (writeFile b p x).cwd = b.cwd := rfl

theorem mkdirParents_cwd {β : Type} (b : Backend β) (t : Option String) (p : String) :
    (mkdirParents b t p).cwd = b.cwd := rfl

theorem mkdirParents_files {β : Type} (b : Backend β) (t : Option String) (p : String) :
    (mkdirParents b t p).files = b.files := rfl

theorem isFile_writeFile_self {β : Type} (b : Backend β) (p : String) (x : β) :
    isFile (writeFile b p x) p = true := by
  simp [isFile, writeFile, alistGet_cons_self]

theorem getLoadPath_error_shape {β : Type} {b : Backend β} {fp : String}
    {v : Option Version} {e : DSError}
    (h : getLoadPath b fp v = .error e) :
    (∃ p, e = .noVersionFound p) ∨ (∃ p, e = .storageAccess p) := by
  unfold getLoadPath at h
  cases v with
  | none => simp at h
  | some ver =>
    obtain ⟨vl, vs⟩ := ver
    cases vl with
    | some tok => simp at h
    | none =>
      simp only at h
      by_cases hl : b.listable
      · rw [if_pos hl] at h
        cases hm : maxToken b.versions with
        | none =>
          rw [hm] at h
          simp only [Except.error.injEq] at h
          exact Or.inl ⟨fp, h.symm⟩
        | some tok => rw [hm] at h; simp at h
      · rw [if_neg hl] at h
        simp only [Except.error.injEq] at h
        exact Or.inr ⟨fp, h.symm⟩

theorem save_success_shape {α β : Type} {c : Codec α β} {d : ParquetLocalDataSet}
    {b b' : Backend β} {x : α} {g : String}
    (h : _save c d b x g = (b', none)) :
    ∃ sp bytes lp,
      getSavePath b d.filepath d.version g = .ok sp ∧
      c.encode d.engine d.save_args x = some bytes ∧
      b' = writeFile (mkdirParents b (saveToken d.version g) sp) sp bytes ∧
      getLoadPath b' d.filepath d.version = .ok lp ∧
      absPath b'.cwd lp = absPath b'.cwd sp := by
  unfold _save at h
  cases hsp : getSavePath b d.filepath d.version g with
  | error e => rw [hsp] at h; simp at h
  | ok sp =>
    rw [hsp] at h
    simp only at h
    cases henc : c.encode d.engine d.save_args x with
    | none => rw [henc] at h; simp at h
    | some bytes =>
      rw [henc] at h
      simp only at h
      cases hlp : getLoadPath (writeFile (mkdirParents b (saveToken d.version g) sp) sp bytes)
          d.filepath d.version with
      | error e => rw [hlp] at h; simp at h
      | ok lp =>
        rw [hlp] at h
        simp only [checkPathsConsistency] at h
        by_cases heq : absPath (writeFile (mkdirParents b (saveToken d.version g) sp) sp bytes).cwd lp =
            absPath (writeFile (mkdirParents b (saveToken d.version g) sp) sp bytes).cwd sp
        · rw [if_pos heq] at h
          simp only [Prod.mk.injEq] at h
          obtain ⟨hb', -⟩ := h
          subst hb'
          exact ⟨sp, bytes, lp, rfl, rfl, rfl, hlp, heq⟩
        · rw [if_neg heq] at h
          simp at h

/-- Claim C2: for every versioned dataset, load-path resolution with a
pinned load token constructs the path deterministically as
`<dir>/<load_token>/<basename>`; with no pinned token it selects the
lexicographically/temporally maximum existing version directory from the
backend listing and constructs the path from it; and it fails with
`NoVersionFoundError` when no version directories exist and no token is
pinned. -/
theorem loadPath_resolution {β : Type} (b : Backend β) (fp : String)
    (s : Option String) (hl : b.listable = true) :
    (∀ tok, getLoadPath b fp (some ⟨some tok, s⟩) = .ok (versionedPath fp tok)) ∧
    (∀ m, maxToken b.versions = some m →
      getLoadPath b fp (some ⟨none, s⟩) = .ok (versionedPath fp m) ∧
      m ∈ b.versions ∧ ∀ u ∈ b.versions, tokLt m u = false) ∧
    (b.versions = [] → getLoadPath b fp (some ⟨none, s⟩) = .error (.noVersionFound fp)) := by
  refine ⟨fun tok => rfl, fun m hm => ?_, fun hv => ?_⟩
  · refine ⟨?_, maxToken_mem hm, maxToken_not_lt hm⟩
    unfold getLoadPath
    simp only [hl, if_true, hm]
  · unfold getLoadPath
    simp only [hl, if_true, hv]
    rfl

/-- Witness for claim C2: pinned-token resolution, maximum selection over a
listing in non-sorted insertion order, and the no-version failure, at
concrete inputs. -/
theorem loadPath_resolution_witness :
    getLoadPath listedBackend "data/out.parquet" (some ⟨some "2019-05-01T00.00.00", none⟩) =
      .ok "data/out.parquet/2019-05-01T00.00.00/out.parquet" ∧
    getLoadPath listedBackend "data/out.parquet" (some ⟨none, none⟩) =
      .ok "data/out.parquet/2019-01-03T00.00.00/out.parquet" ∧
    getLoadPath emptyBackend "data/out.parquet" (some ⟨none, none⟩) =
      .error (.noVersionFound "data/out.parquet") := by
  refine ⟨?_, ?_, ?_⟩
  · exact ((loadPath_resolution listedBackend "data/out.parquet" none rfl).1
      "2019-05-01T00.00.00").trans (by rfl)
  · exact (((loadPath_resolution listedBackend "data/out.parquet" none rfl).2.1
      "2019-01-03T00.00.00" (by rfl)).1).trans (by rfl)
  · exact (loadPath_resolution emptyBackend "data/out.parquet" none rfl).2.2 rfl

/-- Claim C3: `exists()` attempts load-path resolution and returns `false`
exactly when resolution fails with `NoVersionFoundError`; on successful
resolution it delegates the existence probe to the backend
(`Path(path).is_file()`); any other resolution failure (e.g. a
storage-access failure) propagates instead of returning `false`. -/
theorem exists_noVersionFound_policy {β : Type} (d : ParquetLocalDataSet)
    (b : Backend β) :
    (∀ p, getLoadPath b d.filepath d.version = .error (.noVersionFound p) →
      _exists d b = .ok false) ∧
    (∀ p, getLoadPath b d.filepath d.version = .ok p →
      _exists d b = .ok (isFile b p)) ∧
    (∀ e, getLoadPath b d.filepath d.version = .error e →
      (∀ p, e ≠ .noVersionFound p) → _exists d b = .error e) := by
  refine ⟨fun p hp => ?_, fun p hp => ?_, fun e he hne => ?_⟩
  · unfold _exists
    rw [hp]
  · unfold _exists
    rw [hp]
  · unfold _exists
    rw [he]
    cases e with
    | noVersionFound q => exact absurd rfl (hne q)
    | savePathMustNotExist q => rfl
    | versionConsistency lp sp => rfl
    | codecError => rfl
    | storageAccess q => rfl

/-- Witness for claim C3: an empty listing gives `false`, an unlistable
backend propagates the storage-access failure, and successful resolution
delegates to the file probe, at concrete inputs. -/
theorem exists_noVersionFound_policy_witness :
    _exists dsAuto emptyBackend = .ok false ∧
    _exists dsAuto unlistableBackend = .error (.storageAccess "data/out.parquet") ∧
    _exists dsUnversioned emptyBackend = .ok false := by
  refine ⟨?_, ?_, ?_⟩
  · exact (exists_noVersionFound_policy dsAuto emptyBackend).1 "data/out.parquet" (by rfl)
  · exact (exists_noVersionFound_policy dsAuto unlistableBackend).2.2
      (.storageAccess "data/out.parquet") (by rfl)
      (fun p h => DSError.noConfusion h)
  · exact ((exists_noVersionFound_policy dsUnversioned emptyBackend).2.1
      "data/out.parquet" (by rfl)).trans (by rfl)

/-- Claim C10: `exists()` is true only when the resolved load path is a
regular file: when the resolved path is present on the backend but denotes
a directory (e.g. a multipart parquet collection), `exists()` returns
`false` even though data is present there. -/
theorem exists_false_on_directory {β : Type} (d : ParquetLocalDataSet)
    (b : Backend β) (p : String)
    (hres : getLoadPath b d.filepath d.version = .ok p)
    (hdir : absPath b.cwd p ∈ b.dirs)
    (hnf : alistGet (absPath b.cwd p) b.files = none) :
    pathExists b p = true ∧ _exists d b = .ok false := by
  constructor
  · simp [pathExists, hnf, hdir]
  · unfold _exists
    rw [hres]
    simp [isFile, hnf]

/-- Witness for claim C10: a version directory containing the data as a
directory (multipart layout) exists on the backend, yet `exists()` is
`false`. -/
theorem exists_false_on_directory_witness :
    pathExists dirBackend "data/out.parquet/2019-01-01T00.00.00/out.parquet" = true ∧
    _exists dsAuto dirBackend = .ok false :=
  exists_false_on_directory dsAuto dirBackend
    "data/out.parquet/2019-01-01T00.00.00/out.parquet" (by rfl) (by decide) (by rfl)

theorem load_resolve_error {α β : Type} (c : Codec α β) (d : ParquetLocalDataSet)
    (b : Backend β) (e : DSError)
    (he : getLoadPath b d.filepath d.version = .error e) :
    _load c d b = .error e := by
  unfold _load
  rw [he]

theorem load_resolved {α β : Type} (c : Codec α β) (d : ParquetLocalDataSet)
    (b : Backend β) (p : String)
    (hp : getLoadPath b d.filepath d.version = .ok p) :
    _load c d b = read_parquet c d.engine d.load_args b p := by
  unfold _load
  rw [hp]

theorem exists_resolved {β : Type} (d : ParquetLocalDataSet) (b : Backend β)
    (p : String) (hp : getLoadPath b d.filepath d.version = .ok p) :
    _exists d b = .ok (isFile b p) := by
  unfold _exists
  rw [hp]

theorem read_parquet_file_missing {α β : Type} (c : Codec α β) (engine : String)
    (args : List (String × PyVal)) (b : Backend β) (p : String)
    (hf : alistGet (absPath b.cwd p) b.files = none) :
    read_parquet c engine args b p = .error (.storageAccess p) := by
  unfold read_parquet
  rw [hf]

theorem read_parquet_found {α β : Type} (c : Codec α β) (engine : String)
    (args : List (String × PyVal)) (b : Backend β) (p : String) (bs : β)
    (hf : alistGet (absPath b.cwd p) b.files = some bs) :
    read_parquet c engine args b p =
      (match c.decode engine args bs with
        | none => .error .codecError
        | some x => .ok x) := by
  unfold read_parquet
  rw [hf]

theorem read_parquet_error_shape {α β : Type} {c : Codec α β} {engine : String}
    {args : List (String × PyVal)} {b : Backend β} {p : String} {e : DSError}
    (h : read_parquet c engine args b p = .error e) :
    e = .storageAccess p ∨ e = .codecError := by
  cases hf : alistGet (absPath b.cwd p) b.files with
  | none =>
    rw [read_parquet_file_missing c engine args b p hf] at h
    simp only [Except.error.injEq] at h
    exact Or.inl h.symm
  | some bs =>
    rw [read_parquet_found c engine args b p bs hf] at h
    cases hd : c.decode engine args bs with
    | none =>
      rw [hd] at h
      simp only [Except.error.injEq] at h
      exact Or.inr h.symm
    | some y =>
      rw [hd] at h
      simp at h

theorem alistGet_append {γ : Type} (k : String) (d2 d1 : List (String × γ)) :
    alistGet k (d2 ++ d1) = (alistGet k d2).or (alistGet k d1) := by
  induction d2 with
  | nil => rfl
  | cons kv rest ih =>
    obtain ⟨q, v⟩ := kv
    by_cases hk : q = k
    · simp [alistGet, hk]
    · simp [alistGet, hk, ih]

theorem save_files_after_write {α β : Type} (c : Codec α β) (d : ParquetLocalDataSet)
    (b : Backend β) (x : α) (g sp : String) (bytes : β)
    (hsp : getSavePath b d.filepath d.version g = .ok sp)
    (henc : c.encode d.engine d.save_args x = some bytes) :
    (_save c d b x g).1 = writeFile (mkdirParents b (saveToken d.version g) sp) sp bytes := by
  unfold _save
  rw [hsp]
  simp only
  rw [henc]
  simp only
  cases hlp : getLoadPath (writeFile (mkdirParents b (saveToken d.version g) sp) sp bytes)
      d.filepath d.version with
  | error e => rfl
  | ok lp =>
    simp only [checkPathsConsistency]
    split <;> rfl

/-- Claim C9: the load and save option mappings are computed at
construction time: `None` arguments yield the documented defaults (empty
for load, `compression: None` for save); a supplied mapping yields the
defaults overridden by the supplied keys; and the stored options are the
ones passed unchanged to every load call (as `read_parquet` arguments) and
every save call (as the codec arguments of the written bytes). -/
theorem init_config_merging (fp eng : String) (la sa : List (String × PyVal))
    (v : Option Version) :
    ((initDataSet fp eng none none v).load_args = [] ∧
      (initDataSet fp eng none none v).save_args = [("compression", PyVal.pyNone)]) ∧
    (∀ k, alistGet k (initDataSet fp eng (some la) (some sa) v).load_args =
        ((alistGet k la).or (alistGet k defaultLoadArgs)) ∧
      alistGet k (initDataSet fp eng (some la) (some sa) v).save_args =
        ((alistGet k sa).or (alistGet k defaultSaveArgs))) ∧
    (∀ {α β : Type} (c : Codec α β) (d : ParquetLocalDataSet) (b : Backend β)
      (p : String), getLoadPath b d.filepath d.version = .ok p →
      _load c d b = read_parquet c d.engine d.load_args b p) ∧
    (∀ {α β : Type} (c : Codec α β) (d : ParquetLocalDataSet) (b : Backend β)
      (x : α) (g sp : String) (bytes : β),
      getSavePath b d.filepath d.version g = .ok sp →
      c.encode d.engine d.save_args x = some bytes →
      ((_save c d b x g).1).files = (absPath b.cwd sp, bytes) :: b.files) := by
  refine ⟨⟨rfl, rfl⟩, fun k => ?_, ?_, ?_⟩
  · exact ⟨alistGet_append k la defaultLoadArgs, alistGet_append k sa defaultSaveArgs⟩
  · intro α β c d b p hp
    unfold _load
    rw [hp]
  · intro α β c d b x g sp bytes hsp henc
    rw [save_files_after_write c d b x g sp bytes hsp henc]
    rfl

/-- Witness for claim C9: concrete defaults, a concrete override of the
`compression` key, and a concrete load that uses the merged options. -/
theorem init_config_merging_witness :
    (initDataSet "f" "auto" none none none).load_args = [] ∧
    (initDataSet "f" "auto" none none none).save_args = [("compression", PyVal.pyNone)] ∧
    alistGet "compression"
      (initDataSet "f" "auto" (some []) (some [("compression", PyVal.pyStr "gzip")])
        none).save_args = some (PyVal.pyStr "gzip") ∧
    _load natCodec dsUnversioned emptyBackend =
      read_parquet natCodec "auto" [] emptyBackend "data/out.parquet" := by
  refine ⟨?_, ?_, ?_, ?_⟩
  · exact (init_config_merging "f" "auto" [] [] none).1.1
  · exact (init_config_merging "f" "auto" [] [] none).1.2
  · exact (((init_config_merging "f" "auto" []
      [("compression", PyVal.pyStr "gzip")] none).2.1 "compression").2).trans (by rfl)
  · exact ((init_config_merging "data/out.parquet" "auto" [] [] none).2.2.1
      natCodec dsUnversioned emptyBackend "data/out.parquet" (by rfl)).trans (by rfl)

/-- Claim C8: for a version spec with a fixed (pinned) save token, save-path
resolution is independent of the token generated for the call — repeated
resolutions within one save yield the same resolved path — and the save
operation resolves its path once: all bytes it writes land at that single
resolved path. -/
theorem savePath_fixed_per_save {β : Type} (b : Backend β) (fp : String)
    (l : Option String) (T : String) :
    (∀ g h, getSavePath b fp (some ⟨l, some T⟩) g = getSavePath b fp (some ⟨l, some T⟩) h) ∧
    (∀ {α : Type} (c : Codec α β) (d : ParquetLocalDataSet) (x : α) (g sp : String)
      (bytes : β), d.filepath = fp → d.version = some ⟨l, some T⟩ →
      getSavePath b fp (some ⟨l, some T⟩) g = .ok sp →
      c.encode d.engine d.save_args x = some bytes →
      ((_save c d b x g).1).files = (absPath b.cwd sp, bytes) :: b.files) := by
  refine ⟨fun g h => rfl, ?_⟩
  intro α c d x g sp bytes hfp hv hsp henc
  have hsp2 : getSavePath b d.filepath d.version g = .ok sp := by
    rw [hfp, hv]; exact hsp
  rw [save_files_after_write c d b x g sp bytes hsp2 henc]
  rfl

/-- Witness for claim C8: resolving with two different generated tokens
under a pinned save token yields identical paths, and a concrete pinned
save writes exactly at the single resolved path. -/
theorem savePath_fixed_per_save_witness :
    getSavePath emptyBackend "data/out.parquet" (some ⟨none, some "1111"⟩) "g1" =
      getSavePath emptyBackend "data/out.parquet" (some ⟨none, some "1111"⟩) "g2" ∧
    ((_save natCodec dsPinned emptyBackend 7 "g1").1).files =
      [("/cwd/data/out.parquet/1111/out.parquet", 7)] := by
  refine ⟨(savePath_fixed_per_save emptyBackend "data/out.parquet" none "1111").1 "g1" "g2", ?_⟩
  exact ((savePath_fixed_per_save emptyBackend "data/out.parquet" none "1111").2
    natCodec dsPinned 7 "g1" "data/out.parquet/1111/out.parquet" 7
    (by rfl) (by rfl) (by rfl) (by rfl)).trans (by rfl)

/-- Claim C1: after the payload is written, save re-resolves the load path
against the post-write state and compares it with the save path as
normalised absolute paths — silent success when they denote the same
physical location, otherwise a `VersionConsistencyError` carrying both
paths; and the check runs only during save (neither load nor exists can
produce it), only after the write completes. -/
theorem save_runs_consistency_check {α β : Type} (c : Codec α β)
    (d : ParquetLocalDataSet) (b b2 : Backend β) (x : α) (g sp : String) (bytes : β)
    (hsp : getSavePath b d.filepath d.version g = .ok sp)
    (henc : c.encode d.engine d.save_args x = some bytes)
    (hb2 : b2 = writeFile (mkdirParents b (saveToken d.version g) sp) sp bytes) :
    (∀ lp, getLoadPath b2 d.filepath d.version = .ok lp →
      _save c d b x g =
        (b2, if absPath b2.cwd lp = absPath b2.cwd sp then none
          else some (.versionConsistency (absPath b2.cwd lp) (absPath b2.cwd sp)))) ∧
    (∀ (b3 : Backend β) (e : DSError), _load c d b3 = .error e →
      e.isVersionConsistency = false) ∧
    (∀ (b3 : Backend β) (e : DSError), _exists d b3 = .error e →
      e.isVersionConsistency = false) := by
  refine ⟨fun lp hlp => ?_, fun b3 e h => ?_, fun b3 e h => ?_⟩
  · unfold _save
    rw [hsp]
    simp only
    rw [henc]
    simp only
    rw [← hb2, hlp]
    simp only [checkPathsConsistency]
    by_cases heq : absPath b2.cwd lp = absPath b2.cwd sp
    · rw [if_pos heq]
    · rw [if_neg heq]
  · cases hl : getLoadPath b3 d.filepath d.version with
    | error e2 =>
      rw [load_resolve_error c d b3 e2 hl] at h
      simp only [Except.error.injEq] at h
      subst h
      rcases getLoadPath_error_shape hl with ⟨p, rfl⟩ | ⟨p, rfl⟩ <;> rfl
    | ok p =>
      rw [load_resolved c d b3 p hl] at h
      rcases read_parquet_error_shape h with rfl | rfl <;> rfl
  · unfold _exists at h
    cases hl : getLoadPath b3 d.filepath d.version with
    | ok p => rw [hl] at h; simp at h
    | error e2 =>
      rw [hl] at h
      rcases getLoadPath_error_shape hl with ⟨p, rfl⟩ | ⟨p, rfl⟩
      · simp at h
      · simp only [Except.error.injEq] at h
        subst h
        rfl

/-- Witness for claim C1: a backend whose listing already contains a later
version token makes the post-save re-resolution disagree with the save
path, so save fails with a `VersionConsistencyError` naming both absolute
paths, while the written bytes are in the returned state. -/
theorem save_runs_consistency_check_witness :
    _save natCodec dsAuto staleBackend 7 "1111" =
      (staleWritten,
        some (.versionConsistency "/cwd/data/out.parquet/2222/out.parquet"
          "/cwd/data/out.parquet/1111/out.parquet")) := by
  have h := (save_runs_consistency_check natCodec dsAuto staleBackend staleWritten 7
    "1111" "data/out.parquet/1111/out.parquet" 7 (by rfl) (by rfl) (by rfl)).1
    "data/out.parquet/2222/out.parquet" (by rfl)
  exact h.trans (by rfl)

/-- Claim C5: save performs resolve-once, idempotent parent-directory
creation, encode-and-write, then the consistency check, in that order; a
failure at any stage aborts the whole save with an error, and on a
mid-save failure (including a failed consistency check) the state already
flushed — created directories and written bytes — remains on the backend,
with no retry and no rollback. -/
theorem save_stage_order_no_rollback {α β : Type} (c : Codec α β)
    (d : ParquetLocalDataSet) (b : Backend β) (x : α) (g : String) :
    (∀ e, getSavePath b d.filepath d.version g = .error e →
      _save c d b x g = (b, some e)) ∧
    (∀ sp, getSavePath b d.filepath d.version g = .ok sp →
      c.encode d.engine d.save_args x = none →
      _save c d b x g = (mkdirParents b (saveToken d.version g) sp, some .codecError)) ∧
    (∀ sp bytes, getSavePath b d.filepath d.version g = .ok sp →
      c.encode d.engine d.save_args x = some bytes →
      (_save c d b x g).1 = writeFile (mkdirParents b (saveToken d.version g) sp) sp bytes ∧
      isFile (_save c d b x g).1 sp = true) ∧
    (∀ sp bytes lp, getSavePath b d.filepath d.version g = .ok sp →
      c.encode d.engine d.save_args x = some bytes →
      getLoadPath (writeFile (mkdirParents b (saveToken d.version g) sp) sp bytes)
        d.filepath d.version = .ok lp →
      absPath b.cwd lp ≠ absPath b.cwd sp →
      (_save c d b x g).2 =
        some (.versionConsistency (absPath b.cwd lp) (absPath b.cwd sp))) := by
  refine ⟨fun e he => ?_, fun sp hsp henc => ?_, fun sp bytes hsp henc => ?_,
    fun sp bytes lp hsp henc hlp hne => ?_⟩
  · unfold _save
    rw [he]
  · unfold _save
    rw [hsp]
    simp only
    rw [henc]
  · refine ⟨save_files_after_write c d b x g sp bytes hsp henc, ?_⟩
    rw [save_files_after_write c d b x g sp bytes hsp henc]
    exact isFile_writeFile_self _ sp bytes
  · unfold _save
    rw [hsp]
    simp only
    rw [henc]
    simp only
    rw [hlp]
    simp only [checkPathsConsistency]
    have hne2 : ¬ (absPath (writeFile (mkdirParents b (saveToken d.version g) sp) sp
        bytes).cwd lp =
        absPath (writeFile (mkdirParents b (saveToken d.version g) sp) sp bytes).cwd sp) := hne
    rw [if_neg hne2]
    rfl

/-- Witness for claim C5: a resolution failure aborts with the backend
untouched; a codec failure aborts after directory creation; a consistency
failure aborts after the write, with the written file still present in the
returned state. -/
theorem save_stage_order_no_rollback_witness :
    _save natCodec dsPinned occupiedBackend 7 "g" =
      (occupiedBackend,
        some (.savePathMustNotExist "data/out.parquet/1111/out.parquet")) ∧
    _save failingCodec dsPinned emptyBackend 7 "g" =
      (mkdirParents emptyBackend (some "1111") "data/out.parquet/1111/out.parquet",
        some .codecError) ∧
    (_save natCodec dsAuto staleBackend 7 "1111").2 =
      some (.versionConsistency "/cwd/data/out.parquet/2222/out.parquet"
        "/cwd/data/out.parquet/1111/out.parquet") ∧
    isFile (_save natCodec dsAuto staleBackend 7 "1111").1
      "data/out.parquet/1111/out.parquet" = true := by
  refine ⟨?_, ?_, ?_, ?_⟩
  · exact ((save_stage_order_no_rollback natCodec dsPinned occupiedBackend 7 "g").1
      (.savePathMustNotExist "data/out.parquet/1111/out.parquet") (by rfl)).trans (by rfl)
  · exact ((save_stage_order_no_rollback failingCodec dsPinned emptyBackend 7 "g").2.1
      "data/out.parquet/1111/out.parquet" (by rfl) (by rfl)).trans (by rfl)
  · exact ((save_stage_order_no_rollback natCodec dsAuto staleBackend 7 "1111").2.2.2
      "data/out.parquet/1111/out.parquet" 7 "data/out.parquet/2222/out.parquet"
      (by rfl) (by rfl) (by rfl) (by decide)).trans (by rfl)
  · exact ((save_stage_order_no_rollback natCodec dsAuto staleBackend 7 "1111").2.2.1
      "data/out.parquet/1111/out.parquet" 7 (by rfl) (by rfl)).2

/-- Claim C4: once a save with explicit token `T` has written a version, a
subsequent save with the same explicit token `T` fails with an error
(`Save path must not exist`) instead of silently overwriting the written
version, leaving the backend state unchanged. -/
theorem save_same_token_fails {α β : Type} (c : Codec α β) (d : ParquetLocalDataSet)
    (b : Backend β) (x y : α) (g h : String) (l : Option String) (T : String)
    (hv : d.version = some ⟨l, some T⟩)
    (hsucc : (_save c d b x g).2 = none) :
    _save c d (_save c d b x g).1 y h =
      ((_save c d b x g).1,
        some (.savePathMustNotExist (versionedPath d.filepath T))) := by
  cases hsv : _save c d b x g with
  | mk b1 e1 =>
    rw [hsv] at hsucc
    simp only at hsucc
    subst hsucc
    obtain ⟨sp, bytes, lp, hsp, henc, hb1, hlp, heq⟩ := save_success_shape hsv
    have hspT : sp = versionedPath d.filepath T := by
      rw [hv] at hsp
      unfold getSavePath at hsp
      simp only [Option.getD] at hsp
      by_cases hex : pathExists b (versionedPath d.filepath T)
      · rw [if_pos hex] at hsp
        cases hsp
      · rw [if_neg hex] at hsp
        simp only [Except.ok.injEq] at hsp
        exact hsp.symm
    have hexists : pathExists b1 (versionedPath d.filepath T) = true := by
      rw [← hspT, hb1]
      simp [pathExists, writeFile, mkdirParents, alistGet]
    have hsp2 : getSavePath b1 d.filepath d.version h = .error
        (.savePathMustNotExist (versionedPath d.filepath T)) := by
      rw [hv]
      unfold getSavePath
      simp only [Option.getD]
      rw [if_pos hexists]
    unfold _save
    rw [hsp2]

/-- Witness for claim C4: a pinned save to an empty backend succeeds; the
same pinned save again fails with `savePathMustNotExist` and returns the
unchanged state. -/
theorem save_same_token_fails_witness :
    _save natCodec dsPinned (_save natCodec dsPinned emptyBackend 7 "g").1 8 "h" =
      ((_save natCodec dsPinned emptyBackend 7 "g").1,
        some (.savePathMustNotExist "data/out.parquet/1111/out.parquet")) := by
  have hm := save_same_token_fails natCodec dsPinned emptyBackend 7 8 "g" "h" none "1111"
    (by rfl) (by rfl)
  exact hm.trans (by rfl)

/-- Claim C6: saving a payload and then loading returns an equal payload,
for any codec that decodes what it encodes back to the original. -/
theorem save_then_load_roundtrip {α β : Type} (c : Codec α β)
    (d : ParquetLocalDataSet) (b b2 : Backend β) (x : α) (g : String)
    (hcodec : ∀ bytes, c.encode d.engine d.save_args x = some bytes →
      c.decode d.engine d.load_args bytes = some x)
    (hsave : _save c d b x g = (b2, none)) :
    _load c d b2 = .ok x := by
  obtain ⟨sp, bytes, lp, hsp, henc, hb2, hlp, heq⟩ := save_success_shape hsave
  rw [load_resolved c d b2 lp hlp]
  have hget : alistGet (absPath b2.cwd lp) b2.files = some bytes := by
    rw [heq, hb2]
    simp [writeFile, mkdirParents, alistGet]
  rw [read_parquet_found c d.engine d.load_args b2 lp bytes hget, hcodec bytes henc]

/-- Witness for claim C6: a concrete versioned save of the payload `7`
followed by a load returns `7`. -/
theorem save_then_load_roundtrip_witness :
    _load natCodec dsAuto
      (writeFile (mkdirParents emptyBackend (some "1111") "data/out.parquet/1111/out.parquet")
        "data/out.parquet/1111/out.parquet" 7) = .ok 7 :=
  save_then_load_roundtrip natCodec dsAuto emptyBackend
    (writeFile (mkdirParents emptyBackend (some "1111") "data/out.parquet/1111/out.parquet")
      "data/out.parquet/1111/out.parquet" 7) 7 "1111"
    (fun bytes hb => hb.symm) (by rfl)

/-- Claim C7: a dataset constructed without a version spec saves directly
to the logical base path with no version resolution, loads from that same
path, and `exists()` is false before the first save and true immediately
after a successful save. -/
theorem unversioned_direct_path {α β : Type} (c : Codec α β)
    (d : ParquetLocalDataSet) (b : Backend β) (x : α) (g : String) (bytes : β)
    (hv : d.version = none)
    (henc : c.encode d.engine d.save_args x = some bytes) :
    _save c d b x g =
      (writeFile (mkdirParents b none d.filepath) d.filepath bytes, none) ∧
    getLoadPath b d.filepath d.version = .ok d.filepath ∧
    (isFile b d.filepath = false → _exists d b = .ok false) ∧
    _exists d (writeFile (mkdirParents b none d.filepath) d.filepath bytes) =
      .ok true := by
  have hsp : getSavePath b d.filepath d.version g = .ok d.filepath := by
    rw [hv]
    rfl
  have hst : saveToken d.version g = none := by
    rw [hv]
    rfl
  have hlpb : getLoadPath b d.filepath d.version = .ok d.filepath := by
    rw [hv]
    rfl
  have hlpw : getLoadPath (writeFile (mkdirParents b none d.filepath) d.filepath bytes)
      d.filepath d.version = .ok d.filepath := by
    rw [hv]
    rfl
  refine ⟨?_, hlpb, fun hnf => ?_, ?_⟩
  · unfold _save
    rw [hsp]
    simp only
    rw [henc]
    simp only
    rw [hst, hlpw]
    have hchk : checkPathsConsistency
        (absPath (writeFile (mkdirParents b none d.filepath) d.filepath bytes).cwd
          d.filepath)
        (absPath (writeFile (mkdirParents b none d.filepath) d.filepath bytes).cwd
          d.filepath) = none := by
      unfold checkPathsConsistency
      rw [if_pos rfl]
    simp only [hchk]
  · rw [exists_resolved d b d.filepath hlpb, hnf]
  · rw [exists_resolved d (writeFile (mkdirParents b none d.filepath) d.filepath bytes)
      d.filepath hlpw, isFile_writeFile_self]

/-- Witness for claim C7: on an empty backend, the unversioned dataset does
not exist; a save writes directly at the base path; afterwards it exists. -/
theorem unversioned_direct_path_witness :
    _save natCodec dsUnversioned emptyBackend 7 "g" =
      (writeFile (mkdirParents emptyBackend none "data/out.parquet")
        "data/out.parquet" 7, none) ∧
    _exists dsUnversioned emptyBackend = .ok false ∧
    _exists dsUnversioned (writeFile (mkdirParents emptyBackend none "data/out.parquet")
      "data/out.parquet" 7) = .ok true := by
  have hm := unversioned_direct_path natCodec dsUnversioned emptyBackend 7 "g" 7
    (by rfl) (by rfl)
  exact ⟨hm.1, hm.2.2.1 (by rfl), hm.2.2.2⟩

end Kedro
